import Mathlib

/-!
Verification model of `src/trading_bot.py` (class `TradingBot`).

The Python program is shallowly embedded: numeric values (Python floats)
are modelled as exact rationals `ℚ`, dictionaries as association lists,
fallible calls as `Option`/`Except`, and the body of one iteration of the
`while True` loop in `TradingBot.run` as a pure function from the mutable
bot state (`self.position`, `self.last_close_time`) and the cycle's
external inputs (the fetched indicator frame, the fetched balance, and
the exchange's responses to the submitted orders) to the next state plus
a log of what the cycle did.
-/

set_option autoImplicit false

namespace TradingBot

/-- The last row of the indicator DataFrame computed by `fetch_data`:
the `.iloc[-1]` values that `run`, `determine_position`,
`check_entry_conditions` and `calculate_volatility_based_risk` read. -/
structure Snapshot where
  ema200 : ℚ
  ema90 : ℚ
  rsi12 : ℚ
  bbUpper : ℚ
  bbLower : ℚ
  macd : ℚ
  signalLine : ℚ
  atr : ℚ
  close : ℚ
  deriving DecidableEq

/-- The tracked open position: `self.position` is the order-result dict
with the keys `stop_loss`, `take_profit`, `entry_price` added by `run`;
the close path later reads `side` and `amount` from it. -/
structure OpenPosition where
  side : String
  amount : ℚ
  entryPrice : ℚ
  stopLoss : ℚ
  takeProfit : ℚ
  deriving DecidableEq

/-- The mutable state of the bot that survives across loop iterations:
`self.last_close_time` and `self.position`. -/
structure BotState where
  lastCloseTime : ℚ
  position : Option OpenPosition
  deriving DecidableEq

/-- What `place_order` returns on success (`response['result']`), with the
fields the close path later reads from the stored position. -/
structure OrderRes where
  side : String
  amount : ℚ
  deriving DecidableEq

/-- External inputs of one cycle of `run`: the current clock value
(`datetime.now()`), the result of `fetch_data` (`none` models a cycle
where it returned `None`), the balance returned by `get_balance`, and the
results of `place_order` for the entry order and for the closing order
(`none` models a failed order, i.e. `place_order` returned `None`). -/
structure CycleEnv where
  now : ℚ
  fetch : Option Snapshot
  balance : ℚ
  entryResult : Option OrderRes
  closeResult : Option OrderRes
  deriving DecidableEq

/-- The `continue` paths of one cycle of `run`. -/
inductive SkipReason where
  | cooldown
  | fetchFail
  | lowVol
  | noBalance
  deriving DecidableEq

/-- Observable log of one cycle: which `continue` fired (if any), the `qty`
passed to `place_order` for the entry (literally `0.2` in the source), the
min-clamped `amount` variable the source computes, and whether the
position-close comparison at the bottom of the loop body was reached and
whether it triggered. -/
structure CycleLog where
  skip : Option SkipReason
  entrySubmittedQty : Option ℚ
  computedAmount : Option ℚ
  exitEvaluated : Bool
  exitTriggered : Bool
  deriving DecidableEq

/-- `determine_position`: EMA200 above EMA90 is a short bias, below is a
long bias, equality is no bias. -/
def determinePosition (df : Snapshot) : Option String :=
  if df.ema90 < df.ema200 then some ("short")
  else if df.ema200 < df.ema90 then some ("long")
  else none

/-- `check_entry_conditions`: OR of three permissive triggers per side. -/
def checkEntryConditions (df : Snapshot) (position : Option String) : Bool :=
  if position = some ("long") then
    decide (df.rsi12 < 40) || decide (df.close < df.bbLower) ||
      decide (df.macd < df.signalLine)
  else if position = some ("short") then
    decide (60 < df.rsi12) || decide (df.bbUpper < df.close) ||
      decide (df.signalLine < df.macd)
  else false

/-- `calculate_volatility_based_risk`: stop-loss `ATR * 1.5`,
take-profit `ATR * 2.5`. -/
def calculateVolatilityBasedRisk (df : Snapshot) : ℚ × ℚ :=
  (df.atr * (3/2), df.atr * (5/2))

/-- `MIN_ORDER_SIZE = 0.001`, a local constant of `run`. -/
def MIN_ORDER_SIZE : ℚ := 1/1000

/-- The position-monitoring block at the bottom of the loop body of `run`:
if a position exists, compare the current close against
`entry_price - stop_loss` and `entry_price + take_profit`; on a breach the
close order is submitted and then — without inspecting its result — the
position is cleared and `last_close_time` set to this cycle's `now`.
Returns the new `(position, last_close_time)` pair plus two flags:
whether the comparison ran and whether it triggered. -/
def monitorPosition (now : ℚ) (df : Snapshot) (pos? : Option OpenPosition)
    (lastClose : ℚ) : (Option OpenPosition × ℚ) × Bool × Bool :=
  match pos? with
  | none => ((none, lastClose), false, false)
  | some pos =>
    if df.close ≤ pos.entryPrice - pos.stopLoss ∨
        pos.entryPrice + pos.takeProfit ≤ df.close then
      ((none, now), true, true)
    else
      ((some pos, lastClose), true, false)

/-- One iteration of the `while True` loop body of `run`, with
`pause` = `self.pause` and `riskPerc` = `self.risk_perc`.  Mirrors the
source control flow: cooldown `continue`; `fetch_data` returning `None`
`continue`; the low-volatility `continue` (which skips the rest of the
body, including the close check); the entry block (guarded by
`position and not self.position`), whose zero-balance branch also
`continue`s; and finally the close check. The entry order is submitted
with the literal quantity `0.2` (`self.place_order(position, 0.2)`), the
computed `amount` being left unused by the source. -/
def runCycle (pause riskPerc : ℚ) (st : BotState) (env : CycleEnv) :
    BotState × CycleLog :=
  if env.now - st.lastCloseTime < pause then
    (st, ⟨some SkipReason.cooldown, none, none, false, false⟩)
  else
    match env.fetch with
    | none => (st, ⟨some SkipReason.fetchFail, none, none, false, false⟩)
    | some df =>
      let position := determinePosition df
      if |df.ema200 - df.ema90| < df.atr * (1/10) then
        (st, ⟨some SkipReason.lowVol, none, none, false, false⟩)
      else if position.isSome && st.position.isNone &&
          checkEntryConditions df position then
        if env.balance = 0 then
          (st, ⟨some SkipReason.noBalance, none, none, false, false⟩)
        else
          let amount0 := |env.balance * riskPerc / df.close|
          let amount := if amount0 < MIN_ORDER_SIZE then MIN_ORDER_SIZE else amount0
          let sl := (calculateVolatilityBasedRisk df).1
          let tp := (calculateVolatilityBasedRisk df).2
          let st1 : BotState :=
            match env.entryResult with
            | some res =>
              { st with position := some ⟨res.side, res.amount, df.close, sl, tp⟩ }
            | none => st
          let step := monitorPosition env.now df st1.position st1.lastCloseTime
          (⟨step.1.2, step.1.1⟩, ⟨none, some (2/10), some amount, step.2.1, step.2.2⟩)
      else
        let step := monitorPosition env.now df st.position st.lastCloseTime
        (⟨step.1.2, step.1.1⟩, ⟨none, none, none, step.2.1, step.2.2⟩)

/-! Request signing (`_generate_signature` / `send_request`).  Python dict
parameter sets are modelled as association lists from `String` keys to
`PValue` values; Python strings are Lean strings (all values the program
handles are ASCII, where UTF-8 bytes coincide with code points). -/

/-- Python values stored in the request parameter dicts: the source passes
strings (`symbol`, `qty`, …), ints (`limit`, `positionIdx`) and the
boolean `reduceOnly` before its coercion. -/
inductive PValue where
  | s (v : String)
  | b (v : Bool)
  | i (v : ℤ)
  deriving DecidableEq

/-- Python `str()` of a parameter value, as interpolated by the f-string
`f'{k}={params[k]}'`. -/
def pyStr : PValue → String
  | PValue.s v => v
  | PValue.b true => "True"
  | PValue.b false => "False"
  | PValue.i v => toString v

/-- Python lowercase boolean string serialization used by the `reduceOnly`
coercion. -/
def pyBoolStr : Bool → String
  | true => "true"
  | false => "false"

/-- Python truthiness of a parameter value
(`'true' if params['reduceOnly'] else 'false'`). -/
def pyTruthy : PValue → Bool
  | PValue.s v => decide (v ≠ "")
  | PValue.b v => v
  | PValue.i v => decide (v ≠ 0)

/-- Dict assignment `d[k] = v`: replace in place if the key exists,
otherwise append (Python dicts preserve insertion order). -/
def insertD (l : List (String × PValue)) (k : String) (v : PValue) :
    List (String × PValue) :=
  match l with
  | [] => [(k, v)]
  | (k2, v2) :: r => if k2 = k then (k2, v) :: r else (k2, v2) :: insertD r k v

/-- Dict lookup `d[k]`. -/
def lookupD (l : List (String × PValue)) (k : String) : Option PValue :=
  match l with
  | [] => none
  | (k2, v2) :: r => if k2 = k then some v2 else lookupD r k

/-- The key set of the dict. -/
def keysD (l : List (String × PValue)) : List String := l.map Prod.fst

/-- The `reduceOnly` coercion of `send_request`:
`params['reduceOnly'] = 'true' if params['reduceOnly'] else 'false'`. -/
def coerceReduceOnly : List (String × PValue) → List (String × PValue)
  | [] => []
  | (k, v) :: r =>
    (if k = "reduceOnly" then (k, PValue.s (pyBoolStr (pyTruthy v)))
     else (k, v)) :: coerceReduceOnly r

/-- Stable insertion by key order, used to model Python `sorted`. -/
def insertSorted (p : String × PValue) :
    List (String × PValue) → List (String × PValue)
  | [] => [p]
  | q :: r => if q.1 < p.1 then q :: insertSorted p r else p :: q :: r

/-- `sorted(params)` iteration order: the parameter list sorted
lexicographically by key (keys are unique in a dict, so value order is
irrelevant). -/
def sortParams : List (String × PValue) → List (String × PValue)
  | [] => []
  | p :: r => insertSorted p (sortParams r)

/-- Python `'&'.join(...)`. -/
def joinAmp : List String → String
  | [] => ""
  | [x] => x
  | x :: y :: r => x ++ "&" ++ joinAmp (y :: r)

/-- One `f'{k}={params[k]}'` segment. -/
def paramPair (kv : String × PValue) : String := kv.1 ++ "=" ++ pyStr kv.2

/-- The canonical string signed by `_generate_signature`:
`'&'.join([f'{k}={params[k]}' for k in sorted(params)])` applied to a
? key-ordered parameter list. -/
def paramStr (l : List (String × PValue)) : String := joinAmp (l.map paramPair)

/-! A concrete FIPS-180-4 SHA-256 and RFC-2104 HMAC over byte lists,
embedding `hmac.new(secret, param_str, hashlib.sha256).hexdigest()`.
Bytes are naturals below 256 and 32-bit words naturals below `2^32`,
with overflow taken explicitly `% 2^32`. -/

/-- 32-bit right rotation. -/
def rotr32 (n x : ℕ) : ℕ := ((x >>> n) ||| (x <<< (32 - n))) % 2 ^ 32

/-- 32-bit bitwise complement. -/
def not32 (x : ℕ) : ℕ := 2 ^ 32 - 1 - x % 2 ^ 32

/-- SHA-256 Σ₀. -/
def bsig0 (x : ℕ) : ℕ := rotr32 2 x ^^^ rotr32 13 x ^^^ rotr32 22 x

/-- SHA-256 Σ₁. -/
def bsig1 (x : ℕ) : ℕ := rotr32 6 x ^^^ rotr32 11 x ^^^ rotr32 25 x

/-- SHA-256 σ₀. -/
def ssig0 (x : ℕ) : ℕ := rotr32 7 x ^^^ rotr32 18 x ^^^ (x >>> 3)

/-- SHA-256 σ₁. -/
def ssig1 (x : ℕ) : ℕ := rotr32 17 x ^^^ rotr32 19 x ^^^ (x >>> 10)

/-- The 64 SHA-256 round constants of FIPS 180-4 (decimal). -/
def shaK : List ℕ :=
  [1116352408, 1899447441, 3049323471, 3921009573,
   961987163, 1508970993, 2453635748, 2870763221,
   3624381080, 310598401, 607225278, 1426881987,
   1925078388, 2162078206, 2614888103, 3248222580,
   3835390401, 4022224774, 264347078, 604807628,
   770255983, 1249150122, 1555081692, 1996064986,
   2554220882, 2821834349, 2952996808, 3210313671,
   3336571891, 3584528711, 113926993, 338241895,
   666307205, 773529912, 1294757372, 1396182291,
   1695183700, 1986661051, 2177026350, 2456956037,
   2730485921, 2820302411, 3259730800, 3345764771,
   3516065817, 3600352804, 4094571909, 275423344,
   430227734, 506948616, 659060556, 883997877,
   958139571, 1322822218, 1537002063, 1747873779,
   1955562222, 2024104815, 2227730452, 2361852424,
   2428436474, 2756734187, 3204031479, 3329325298]

/-- Working state of the SHA-256 compression function. -/
structure Sha256State where
  a : ℕ
  b : ℕ
  c : ℕ
  d : ℕ
  e : ℕ
  f : ℕ
  g : ℕ
  h : ℕ
  deriving DecidableEq

/-- Initial SHA-256 chaining value (decimal). -/
def sha256Init : Sha256State :=
  ⟨1779033703, 3144134277, 1013904242, 2773480762,
   1359893119, 2600822924, 528734635, 1541459225⟩

/-- Merkle–Damgård padding: a 0x80 byte, zeros to 56 mod 64, and the
big-endian 64-bit bit length. -/
def sha256pad (msg : List ℕ) : List ℕ :=
  let bitLen := msg.length * 8
  let padZeros := (64 + 55 - msg.length % 64) % 64
  msg ++ [128] ++ List.replicate padZeros 0 ++
    (List.range 8).map fun i => (bitLen >>> (8 * (7 - i))) % 256

/-- Group bytes into big-endian 32-bit words. -/
def bytesToWords : List ℕ → List ℕ
  | b0 :: b1 :: b2 :: b3 :: rest =>
    (((b0 * 256 + b1) * 256 + b2) * 256 + b3) :: bytesToWords rest
  | _ => []

/-- Split the padded byte stream into 64-byte blocks (fuel-indexed to keep
the recursion structural; the fuel `l.length` always suffices). -/
def toBlocksAux : ℕ → List ℕ → List (List ℕ)
  | 0, _ => []
  | _, [] => []
  | n + 1, x :: xs => ((x :: xs).take 64) :: toBlocksAux n ((x :: xs).drop 64)

/-- 64-byte blocks of a byte stream. -/
def toBlocks (l : List ℕ) : List (List ℕ) := toBlocksAux l.length l

/-- Extend the 16 block words by `n` further schedule words
`w[t] = σ₁(w[t-2]) + w[t-7] + σ₀(w[t-15]) + w[t-16] (mod 2^32)`. -/
def extendSchedule (w : List ℕ) : ℕ → List ℕ
  | 0 => w
  | n + 1 =>
    extendSchedule
      (w ++ [(ssig1 (w.getD (w.length - 2) 0) + w.getD (w.length - 7) 0 +
        ssig0 (w.getD (w.length - 15) 0) + w.getD (w.length - 16) 0) % 2 ^ 32])
      n

/-- One SHA-256 round with the round constant and schedule word `kw`. -/
def compressStep (kw : ℕ × ℕ) (s : Sha256State) : Sha256State :=
  let t1 := (s.h + bsig1 s.e + ((s.e &&& s.f) ^^^ (not32 s.e &&& s.g)) +
    kw.1 + kw.2) % 2 ^ 32
  let t2 := (bsig0 s.a +
    ((s.a &&& s.b) ^^^ (s.a &&& s.c) ^^^ (s.b &&& s.c))) % 2 ^ 32
  ⟨(t1 + t2) % 2 ^ 32, s.a, s.b, s.c, (s.d + t1) % 2 ^ 32, s.e, s.f, s.g⟩

/-- Compress one 16-word block into the chaining state. -/
def compressBlock (hst : Sha256State) (block : List ℕ) : Sha256State :=
  let w := extendSchedule block 48
  let s := (shaK.zip w).foldl (fun s kw => compressStep kw s) hst
  ⟨(hst.a + s.a) % 2 ^ 32, (hst.b + s.b) % 2 ^ 32, (hst.c + s.c) % 2 ^ 32,
   (hst.d + s.d) % 2 ^ 32, (hst.e + s.e) % 2 ^ 32, (hst.f + s.f) % 2 ^ 32,
   (hst.g + s.g) % 2 ^ 32, (hst.h + s.h) % 2 ^ 32⟩

/-- Big-endian bytes of a 32-bit word. -/
def wordBytes (w : ℕ) : List ℕ :=
  [(w >>> 24) % 256, (w >>> 16) % 256, (w >>> 8) % 256, w % 256]

/-- SHA-256 digest (32 bytes) of a byte stream. -/
def sha256Bytes (msg : List ℕ) : List ℕ :=
  let fin := (toBlocks (sha256pad msg)).foldl
    (fun st blk => compressBlock st (bytesToWords blk)) sha256Init
  (([fin.a, fin.b, fin.c, fin.d, fin.e, fin.f, fin.g, fin.h]).map wordBytes).flatten

/-- Lowercase hex digit. -/
def hexChar (n : ℕ) : Char :=
  if n < 10 then Char.ofNat (48 + n) else Char.ofNat (87 + n)

/-- Lowercase hex string of a byte list (`hexdigest`). -/
def bytesToHex (bs : List ℕ) : String :=
  String.mk ((bs.map fun b => [hexChar (b / 16), hexChar (b % 16)]).flatten)

/-- UTF-8 bytes of the (ASCII) strings handled by the program. -/
def strToBytes (s : String) : List ℕ := s.data.map Char.toNat

/-- RFC 2104 HMAC with SHA-256 (`hmac.new(key, msg, hashlib.sha256)`):
block size 64, key hashed if longer, padded with zeros, inner pad 0x36,
outer pad 0x5c. -/
def hmacSha256 (key msg : List ℕ) : List ℕ :=
  let k0 := if 64 < key.length then sha256Bytes key else key
  let kp := k0 ++ List.replicate (64 - k0.length) 0
  sha256Bytes ((kp.map fun b => b ^^^ 92) ++
    sha256Bytes ((kp.map fun b => b ^^^ 54) ++ msg))

/-- `hmac.new(key, msg, hashlib.sha256).hexdigest()`. -/
def hmacSha256Hex (key msg : List ℕ) : String := bytesToHex (hmacSha256 key msg)

/-- `_generate_signature`: HMAC-SHA-256 hex digest of the canonical
key-sorted `key=value` string under the account secret. -/
def generate_signature (secret : String) (params : List (String × PValue)) :
    String :=
  hmacSha256Hex (strToBytes secret) (strToBytes (paramStr (sortParams params)))

/-- The parameter dict of `send_request` after `api_key` and `timestamp`
are assigned and `reduceOnly` is coerced — the exact dict over which the
signature is computed. -/
def processedParams (apiKey ts : String) (p : List (String × PValue)) :
    List (String × PValue) :=
  coerceReduceOnly
    (insertD (insertD p ("api_key") (PValue.s apiKey)) ("timestamp")
      (PValue.s ts))

/-- The caller's parameter dict after `send_request` returns (the dict is
mutated in place): `processedParams` plus the `sign` entry.  This is also
exactly the parameter set printed by the per-request log line, which runs
AFTER the `sign` assignment. -/
def signedParams (secret apiKey ts : String) (p : List (String × PValue)) :
    List (String × PValue) :=
  insertD (processedParams apiKey ts p) ("sign")
    (PValue.s (generate_signature secret
      (sortParams (processedParams apiKey ts p))))

/-! Request-level operations and their failure behaviour.
`send_request` surfaces each transport failure, non-2xx status, and
undecodable body as the return value `None` (modelled `none`); a parsed
envelope is a structured response value.  An uncaught Python exception is
modelled as `Except.error`. -/

/-- Uncaught Python faults the request handlers can raise. -/
inductive PyErr where
  | typeError
  | attributeError
  | indexError
  deriving DecidableEq

/-- Parsed kline envelope: `retCode`, `retMsg`, `result.list` rows
(numeric cells). -/
structure KlineResp where
  retCode : ℤ
  retMsg : String
  rows : List (List ℚ)
  deriving DecidableEq

/-- One entry of a wallet-balance `coin` array. -/
structure CoinEntry where
  coin : String
  walletBalance : ℚ
  deriving DecidableEq

/-- Parsed wallet-balance envelope: `result.list` is a list of accounts,
each holding its `coin` array. -/
structure BalanceResp where
  retCode : ℤ
  retMsg : String
  accounts : List (List CoinEntry)
  deriving DecidableEq

/-- Parsed order-create envelope. -/
structure OrderResp where
  retCode : ℤ
  retMsg : String
  result : OrderRes
  deriving DecidableEq

/-- `fetch_data` applied to the value `send_request` returned.
`data['retCode']` on `None` raises an uncaught `TypeError`;
a non-zero `retCode` returns `None` (cycle skip); an empty
`result.list` raises `IndexError` at `data['result']['list'][0]` (the
`try` only catches `ValueError`); rows of unequal or too-short width make
the DataFrame constructor raise `ValueError`, which IS caught and becomes
a `None` return. -/
def fetchData (data : Option KlineResp) :
    Except PyErr (Option (List (List ℚ))) :=
  match data with
  | none => Except.error PyErr.typeError
  | some d =>
    if d.retCode ≠ 0 then Except.ok none
    else
      match d.rows with
      | [] => Except.error PyErr.indexError
      | r0 :: rest =>
        if 6 ≤ r0.length ∧ rest.all fun r => r.length = r0.length then
          Except.ok (some (r0 :: rest))
        else Except.ok none

/-- The USDT scan of `get_balance`: first matching coin entry, else 0. -/
def findUSDT : List CoinEntry → ℚ
  | [] => 0
  | c :: r => if c.coin = "USDT" then c.walletBalance else findUSDT r

/-- `get_balance` applied to the value `send_request` returned: a `None`
response is explicitly guarded (returns 0), a non-zero `retCode` returns
0, and `KeyError`/`TypeError` while traversing are caught (the typed
model makes those paths unreachable); but `result.list[0]` on an empty
list raises `IndexError`, which `except (KeyError, TypeError)` does not
catch. -/
def getBalance (data : Option BalanceResp) : Except PyErr ℚ :=
  match data with
  | none => Except.ok 0
  | some d =>
    if d.retCode = 0 then
      match d.accounts with
      | [] => Except.error PyErr.indexError
      | acct :: _ => Except.ok (findUSDT acct)
    else Except.ok 0

/-- `place_order` applied to the value `send_request` returned: on
`retCode == 0` the `result` object is returned; on a non-zero `retCode`
the error branch logs `response.get('retMsg', ...)` and returns `None`;
but when the response itself is `None`, that same error branch calls
`.get` on `None` and raises an uncaught `AttributeError`. -/
def placeOrder (resp : Option OrderResp) : Except PyErr (Option OrderRes) :=
  match resp with
  | some r =>
    if r.retCode = 0 then Except.ok (some r.result) else Except.ok none
  | none => Except.error PyErr.attributeError

/-! EMA columns of `fetch_data`.  The source computes every EMA with
`pandas.Series.ewm(span=s).mean()` and pandas' DEFAULT `adjust=True`,
whose value at index `t` is the weight-normalized sum
`Σ_{i≤t} (1-α)^(t-i)·x[i] / Σ_{i≤t} (1-α)^i` with `α = 2/(s+1)` —
not the plain recursion `ema[t] = α·x[t] + (1-α)·ema[t-1]`. -/

/-- Numerator of pandas `ewm(span).mean()` (`adjust=True`) at index `t`. -/
def wsum (a : ℚ) (x : ℕ → ℚ) (t : ℕ) : ℚ :=
  ∑ i ∈ Finset.range (t + 1), (1 - a) ^ (t - i) * x i

/-- Denominator (sum of the exponential weights) at index `t`. -/
def wden (a : ℚ) (t : ℕ) : ℚ :=
  ∑ i ∈ Finset.range (t + 1), (1 - a) ^ i

/-- Value of pandas `ewm.mean()` with `adjust=True` at index `t`. -/
def ewmAdj (a : ℚ) (x : ℕ → ℚ) (t : ℕ) : ℚ :=
  wsum a x t / wden a t

/-- `series.ewm(span=span).mean()` as used in `fetch_data`. -/
def emaSpan (span : ℕ) (x : ℕ → ℚ) (t : ℕ) : ℚ :=
  ewmAdj (2 / ((span : ℚ) + 1)) x t

/-- `df['EMA200']`. -/
def EMA200 (close : ℕ → ℚ) : ℕ → ℚ := emaSpan 200 close

/-- `df['EMA90']`. -/
def EMA90 (close : ℕ → ℚ) : ℕ → ℚ := emaSpan 90 close

/-- `df['MACD'] = ewm(span=12) - ewm(span=26)` of the closes. -/
def MACDCol (close : ℕ → ℚ) (t : ℕ) : ℚ :=
  emaSpan 12 close t - emaSpan 26 close t

/-- `df['Signal'] = df['MACD'].ewm(span=9).mean()`. -/
def MACDSignal (close : ℕ → ℚ) : ℕ → ℚ :=
  emaSpan 9 (MACDCol close)

/-! RSI column of `fetch_data`.  `delta = close.diff()`;
`gain = delta.where(delta > 0, 0).rolling(12).mean()`;
`loss = -delta.where(delta < 0, 0).rolling(12).mean()`;
`RSI12 = 100 - 100/(1 + gain/loss)`.  The last expression is evaluated
with float semantics, where `x/0 = inf` for `x > 0` and `0/0 = NaN`; the
`RFloat` type models exactly those special values. -/

/-- IEEE-style special values produced by the pandas float pipeline. -/
inductive RFloat where
  | nan
  | inf
  | ninf
  | val (q : ℚ)
  deriving DecidableEq

namespace RFloat

/-- Float addition on the special values (no rounding: finite values are
exact rationals). -/
def add : RFloat → RFloat → RFloat
  | nan, _ => nan
  | _, nan => nan
  | inf, ninf => nan
  | ninf, inf => nan
  | inf, _ => inf
  | _, inf => inf
  | ninf, _ => ninf
  | _, ninf => ninf
  | val a, val b => val (a + b)

/-- Float subtraction on the special values. -/
def sub : RFloat → RFloat → RFloat
  | nan, _ => nan
  | _, nan => nan
  | inf, inf => nan
  | ninf, ninf => nan
  | inf, _ => inf
  | _, inf => ninf
  | ninf, _ => ninf
  | _, ninf => inf
  | val a, val b => val (a - b)

/-- Float division on the special values: `x/0` is signed infinity for
`x ≠ 0` and NaN for `0/0`. -/
def div : RFloat → RFloat → RFloat
  | nan, _ => nan
  | _, nan => nan
  | inf, inf => nan
  | inf, ninf => nan
  | ninf, inf => nan
  | ninf, ninf => nan
  | inf, val b => if 0 ≤ b then inf else ninf
  | ninf, val b => if 0 ≤ b then ninf else inf
  | val _, inf => val 0
  | val _, ninf => val 0
  | val a, val b =>
    if b = 0 then (if a = 0 then nan else if 0 < a then inf else ninf)
    else val (a / b)

end RFloat

/-- `close.diff()`: at index 0 pandas yields NaN, which the subsequent
`where(delta > 0, 0)` / `where(delta < 0, 0)` turn into 0; with ℕ
truncated subtraction `x 0 - x (0-1) = 0`, so index 0 contributes 0 to
both rolling means exactly as in pandas. -/
def deltaClose (x : ℕ → ℚ) (i : ℕ) : ℚ := x i - x (i - 1)

/-- `delta.where(delta > 0, 0)`. -/
def gainD (x : ℕ → ℚ) (i : ℕ) : ℚ :=
  if 0 < deltaClose x i then deltaClose x i else 0

/-- `-delta.where(delta < 0, 0)`: magnitude of the negative delta. -/
def lossD (x : ℕ → ℚ) (i : ℕ) : ℚ :=
  if deltaClose x i < 0 then -(deltaClose x i) else 0

/-- `gain.rolling(window=12).mean()` at index `t` (window `t-11 … t`). -/
def gainAvg (x : ℕ → ℚ) (t : ℕ) : ℚ :=
  (∑ j ∈ Finset.Icc (t - 11) t, gainD x j) / 12

/-- `loss.rolling(window=12).mean()` at index `t`. -/
def lossAvg (x : ℕ → ℚ) (t : ℕ) : ℚ :=
  (∑ j ∈ Finset.Icc (t - 11) t, lossD x j) / 12

/-- `df['RSI12'] = 100 - (100 / (1 + gain / loss))` with float
special-value semantics. -/
def RSI12 (x : ℕ → ℚ) (t : ℕ) : RFloat :=
  RFloat.sub (RFloat.val 100)
    (RFloat.div (RFloat.val 100)
      (RFloat.add (RFloat.val 1)
        (RFloat.div (RFloat.val (gainAvg x t)) (RFloat.val (lossAvg x t)))))

theorem wsum_succ (a : ℚ) (x : ℕ → ℚ) (t : ℕ) :
    wsum a x (t + 1) = (1 - a) * wsum a x t + x (t + 1) := by
  unfold wsum
  rw [Finset.sum_range_succ, Nat.sub_self, pow_zero, one_mul, Finset.mul_sum]
  congr 1
  refine Finset.sum_congr rfl fun i hi => ?_
  have hit : i ≤ t := Nat.lt_succ_iff.mp (Finset.mem_range.mp hi)
  rw [Nat.succ_sub hit, pow_succ]
  ring

theorem wden_pos (a : ℚ) (h1 : a ≤ 1) (t : ℕ) :
    0 < wden a t := by
  unfold wden
  refine Finset.sum_pos' (fun i _ => pow_nonneg (by linarith) i) ?_
  exact ⟨0, Finset.mem_range.mpr (Nat.succ_pos t), by norm_num⟩

/-- C4 amended: each EMA series the source computes follows pandas
`adjust=True` semantics; it satisfies the WEIGHT-NORMALIZED recursion
`ema[t]·S[t] = x[t] + (1-α)·(ema[t-1]·S[t-1])` (with `S[t]` the sum of
the weights `(1-α)^i`, `i ≤ t`), not the plain recursion
`ema[t] = α·x[t] + (1-α)·ema[t-1]` asserted by the claim. -/
theorem claim_C4_amended (span : ℕ) (x : ℕ → ℚ) (t : ℕ) (hspan : 1 ≤ span) :
    emaSpan span x (t + 1) * wden (2 / ((span : ℚ) + 1)) (t + 1) =
      x (t + 1) +
        (1 - 2 / ((span : ℚ) + 1)) *
          (emaSpan span x t * wden (2 / ((span : ℚ) + 1)) t) := by
  have hs : (1 : ℚ) ≤ (span : ℚ) := by exact_mod_cast hspan
  have h1 : 2 / ((span : ℚ) + 1) ≤ 1 := by
    rw [div_le_one (by linarith)]
    linarith
  have hd : wden (2 / ((span : ℚ) + 1)) t ≠ 0 :=
    ne_of_gt (wden_pos _ h1 t)
  have hd' : wden (2 / ((span : ℚ) + 1)) (t + 1) ≠ 0 :=
    ne_of_gt (wden_pos _ h1 (t + 1))
  simp only [emaSpan, ewmAdj]
  rw [div_mul_cancel₀ _ hd', div_mul_cancel₀ _ hd, wsum_succ]
  ring

/-- C4 amended witness: concrete instance of `claim_C4_amended` at span 12,
the constant series 7, t = 0. -/
theorem claim_C4_amended_witness :
    emaSpan 12 (fun _ => (7 : ℚ)) 1 * wden (2 / (((12 : ℕ) : ℚ) + 1)) 1 =
      7 + (1 - 2 / (((12 : ℕ) : ℚ) + 1)) *
        (emaSpan 12 (fun _ => (7 : ℚ)) 0 * wden (2 / (((12 : ℕ) : ℚ) + 1)) 0) :=
  claim_C4_amended 12 (fun _ => (7 : ℚ)) 0 (by norm_num)

/-- C4 counterexample: for the 13-bar close sequence 0,…,0,1 and the
span-12 EMA (the MACD fast EMA of `fetch_data`) the plain recursive
identity fails at t = 12 even though both admissible seed conventions
coincide there: the first value is 0, the simple mean of the first 12
values is 0, and the computed series value at t = 11 is 0, yet
`ema[12] ≠ α·x[12] + (1-α)·ema[11]` for `α = 2/13`. -/
theorem claim_C4_counterexample :
    (fun i => if i = 12 then (1 : ℚ) else 0) 0 = 0 ∧
    (∑ i ∈ Finset.range 12, (fun i => if i = 12 then (1 : ℚ) else 0) i) / 12
      = 0 ∧
    emaSpan 12 (fun i => if i = 12 then (1 : ℚ) else 0) 11 = 0 ∧
    emaSpan 12 (fun i => if i = 12 then (1 : ℚ) else 0) 12 ≠
      (2 / 13) * (fun i => if i = 12 then (1 : ℚ) else 0) 12 +
        (1 - 2 / 13) *
          emaSpan 12 (fun i => if i = 12 then (1 : ℚ) else 0) 11 := by
  have ha : (2 : ℚ) / ((12 : ℕ) + 1 : ℚ) = 2 / 13 := by norm_num
  have hzero : ∀ i < 12, (if i = 12 then (1 : ℚ) else 0) = 0 := by
    intro i hi
    rw [if_neg (by omega)]
  have hmean :
      (∑ i ∈ Finset.range 12, (fun i => if i = 12 then (1 : ℚ) else 0) i)
        = 0 :=
    Finset.sum_eq_zero fun i hi => hzero i (Finset.mem_range.mp hi)
  have h11 : emaSpan 12 (fun i => if i = 12 then (1 : ℚ) else 0) 11 = 0 := by
    have hnum : wsum (2 / ((12 : ℕ) + 1 : ℚ))
        (fun i => if i = 12 then (1 : ℚ) else 0) 11 = 0 := by
      refine Finset.sum_eq_zero fun i hi => ?_
      simp only [hzero i (Finset.mem_range.mp hi), mul_zero]
    simp only [emaSpan, ewmAdj]
    rw [hnum, zero_div]
  have hden : wden ((2 : ℚ) / 13) 12 =
      (((11 : ℚ) / 13) ^ 13 - 1) / ((11 : ℚ) / 13 - 1) := by
    unfold wden
    rw [show (1 : ℚ) - 2 / 13 = 11 / 13 from by norm_num,
      geom_sum_eq (by norm_num)]
  have hnum12 : wsum ((2 : ℚ) / 13)
      (fun i => if i = 12 then (1 : ℚ) else 0) 12 = 1 := by
    unfold wsum
    rw [Finset.sum_range_succ, Finset.sum_eq_zero]
    · norm_num
    · intro i hi
      simp only [hzero i (Finset.mem_range.mp hi), mul_zero]
  have h12 : emaSpan 12 (fun i => if i = 12 then (1 : ℚ) else 0) 12 =
      1 / ((((11 : ℚ) / 13) ^ 13 - 1) / ((11 : ℚ) / 13 - 1)) := by
    simp only [emaSpan, ewmAdj, ha]
    rw [hnum12, hden]
  refine ⟨rfl, by rw [hmean]; norm_num, h11, ?_⟩
  rw [h11, h12]
  norm_num

theorem gainAvg_nonneg (x : ℕ → ℚ) (t : ℕ) : 0 ≤ gainAvg x t := by
  unfold gainAvg
  refine div_nonneg (Finset.sum_nonneg fun j _ => ?_) (by norm_num)
  unfold gainD
  split
  · linarith [lt_of_lt_of_le (show (0:ℚ) < deltaClose x j by assumption) le_rfl]
  · exact le_refl 0

/-- C7 counterexample: for a constant close series every delta is zero, so
both rolling averages are 0 and the pipeline computes `0/0 = NaN`; the RSI
at t = 12 is NaN — neither 100 nor inside [0,100] — even though the
average magnitude of negative deltas over the window is zero. -/
theorem claim_C7_counterexample :
    lossAvg (fun _ => (5 : ℚ)) 12 = 0 ∧
    RSI12 (fun _ => (5 : ℚ)) 12 = RFloat.nan := by
  have hg : gainAvg (fun _ => (5 : ℚ)) 12 = 0 := by
    unfold gainAvg
    rw [Finset.sum_eq_zero, zero_div]
    intro j _
    unfold gainD deltaClose
    norm_num
  have hl : lossAvg (fun _ => (5 : ℚ)) 12 = 0 := by
    unfold lossAvg
    rw [Finset.sum_eq_zero, zero_div]
    intro j _
    unfold lossD deltaClose
    norm_num
  refine ⟨hl, ?_⟩
  rw [RSI12, hg, hl]
  rfl

/-- C7 amended: whenever the loss average is positive the RSI is a finite
value in [0,100]; when the loss average is zero and the gain average is
positive the RSI is exactly 100; but when BOTH averages are zero (all
twelve deltas zero) the RSI is NaN, not 100 as the claim asserts. -/
theorem claim_C7_amended (x : ℕ → ℚ) (t : ℕ) :
    (0 < lossAvg x t →
      ∃ q, RSI12 x t = RFloat.val q ∧ 0 ≤ q ∧ q ≤ 100) ∧
    (lossAvg x t = 0 → 0 < gainAvg x t → RSI12 x t = RFloat.val 100) ∧
    (lossAvg x t = 0 → gainAvg x t = 0 → RSI12 x t = RFloat.nan) := by
  refine ⟨?_, ?_, ?_⟩
  · intro hl
    have hg : 0 ≤ gainAvg x t := gainAvg_nonneg x t
    have hr : 0 ≤ gainAvg x t / lossAvg x t := div_nonneg hg hl.le
    have hb : (0 : ℚ) < 1 + gainAvg x t / lossAvg x t := by linarith
    refine ⟨100 - 100 / (1 + gainAvg x t / lossAvg x t), ?_, ?_, ?_⟩
    · rw [RSI12]
      simp only [RFloat.div, RFloat.add, RFloat.sub, if_neg (ne_of_gt hl),
        if_neg (ne_of_gt hb)]
    · have h100 : 100 / (1 + gainAvg x t / lossAvg x t) ≤ 100 :=
        div_le_self (by norm_num) (by linarith)
      linarith
    · have hpos : 0 < 100 / (1 + gainAvg x t / lossAvg x t) :=
        div_pos (by norm_num) hb
      linarith
  · intro hl hg
    rw [RSI12, hl]
    simp only [RFloat.div, if_pos rfl, if_neg (ne_of_gt hg), if_pos hg,
      RFloat.add, RFloat.sub]
    norm_num
  · intro hl hg
    rw [RSI12, hl, hg]
    rfl

/-- C7 amended witness: for the strictly increasing close series
`x i = i`, every delta inside the window is +1, so the loss average is 0,
the gain average is 1, and the RSI at t = 12 is exactly 100. -/
theorem claim_C7_amended_witness :
    RSI12 (fun i => (i : ℚ)) 12 = RFloat.val 100 := by
  have hdelta : ∀ j ∈ Finset.Icc 1 12, deltaClose (fun i => (i : ℚ)) j = 1 := by
    intro j hj
    have h1 : 1 ≤ j := (Finset.mem_Icc.mp hj).1
    show ((j : ℚ) - ((j - 1 : ℕ) : ℚ)) = 1
    rw [Nat.cast_sub h1]
    norm_num
  have hl : lossAvg (fun i => (i : ℚ)) 12 = 0 := by
    unfold lossAvg
    rw [show (12 : ℕ) - 11 = 1 from rfl, Finset.sum_eq_zero, zero_div]
    intro j hj
    unfold lossD
    rw [if_neg]
    rw [hdelta j hj]
    norm_num
  have hg : gainAvg (fun i => (i : ℚ)) 12 = 1 := by
    unfold gainAvg
    rw [show (12 : ℕ) - 11 = 1 from rfl]
    rw [Finset.sum_congr rfl fun j hj => show gainD (fun i => (i : ℚ)) j = 1 by
      unfold gainD
      rw [hdelta j hj]
      norm_num]
    rw [Finset.sum_const, Nat.card_Icc]
    norm_num
  exact (claim_C7_amended (fun i => (i : ℚ)) 12).2.1 hl (by rw [hg]; norm_num)

/-- C1: in the scenario balance=1000, risk_fraction=0.02, price=50000
(min order 0.001), `run` computes the clamped amount 0.001 exactly as the
spec describes, but the quantity actually submitted in the entry order is
the hardcoded literal 0.2 (`self.place_order(position, 0.2)`), not the
clamped amount — the computed `amount` variable is never used.  This
theorem evaluates the embedded cycle at the claim's own scenario and
exhibits the divergence. -/
theorem claim_C1_entry_qty_hardcoded :
    (runCycle 15 (1/50) ⟨0, none⟩
      ⟨100, some ⟨1, 2, 30, 1000000, 0, 0, 0, 5, 50000⟩, 1000,
        some ⟨"Buy", 1/5⟩, none⟩).2.computedAmount = some (1/1000) ∧
    (runCycle 15 (1/50) ⟨0, none⟩
      ⟨100, some ⟨1, 2, 30, 1000000, 0, 0, 0, 5, 50000⟩, 1000,
        some ⟨"Buy", 1/5⟩, none⟩).2.entrySubmittedQty = some (2/10) ∧
    ((2/10 : ℚ) ≠ 1/1000) := by
  refine ⟨?_, ?_, by norm_num⟩ <;>
    norm_num [runCycle, determinePosition, checkEntryConditions,
      calculateVolatilityBasedRisk, MIN_ORDER_SIZE, monitorPosition,
      abs_of_nonneg, abs_of_nonpos]

/-- C2 counterexample: with an open position (entry 100, stop-loss 3),
current close 96 breaching the stop, and the closing order FAILING
(`place_order` returned `None`, modelled by `closeResult = none`), the
cycle nevertheless clears the position and restarts the cooldown
(`last_close_time := now`).  This falsifies the claim that on an
unacknowledged close the position remains open and the cooldown is not
restarted: the source ignores the closing order's result. -/
theorem claim_C2_counterexample :
    runCycle 15 (1/50) ⟨0, some ⟨"buy", 1/100, 100, 3, 250⟩⟩
      ⟨100, some ⟨10, 0, 50, 1000, 0, 0, 0, 1, 96⟩, 5, none, none⟩ =
    (⟨100, none⟩, ⟨none, none, none, true, true⟩) := by
  norm_num [runCycle, determinePosition, checkEntryConditions,
    calculateVolatilityBasedRisk, MIN_ORDER_SIZE, monitorPosition,
    abs_of_nonneg, abs_of_nonpos]

/-- C2 amended: once the exit threshold of an open position is breached on
a cycle that reaches the monitoring block, the position is cleared and
`last_close_time` is set to the cycle's `now` UNCONDITIONALLY — the result
of the closing order (`env.closeResult`, which is arbitrary here) is never
consulted. -/
theorem claim_C2_amended (pause riskPerc : ℚ) (st : BotState) (env : CycleEnv)
    (df : Snapshot) (pos : OpenPosition)
    (hpos : st.position = some pos)
    (hfetch : env.fetch = some df)
    (hcool : ¬ (env.now - st.lastCloseTime < pause))
    (hgate : ¬ (|df.ema200 - df.ema90| < df.atr * (1/10)))
    (hbreach : df.close ≤ pos.entryPrice - pos.stopLoss ∨
      pos.entryPrice + pos.takeProfit ≤ df.close) :
    (runCycle pause riskPerc st env).1.position = none ∧
      (runCycle pause riskPerc st env).1.lastCloseTime = env.now := by
  simp only [runCycle, hfetch, if_neg hcool, if_neg hgate, hpos,
    monitorPosition, Option.isNone_some, Bool.and_false, Bool.false_and,
    Bool.false_eq_true, if_false, if_pos hbreach]
  exact ⟨trivial, trivial⟩

/-- C2 amended witness: concrete instance of `claim_C2_amended`. -/
theorem claim_C2_amended_witness :
    (runCycle 15 (1/50) ⟨0, some ⟨"buy", 1, 100, 3, 250⟩⟩
      ⟨50, some ⟨10, 0, 50, 1000, 0, 0, 0, 1, 96⟩, 1, none, none⟩).1.position
        = none ∧
    (runCycle 15 (1/50) ⟨0, some ⟨"buy", 1, 100, 3, 250⟩⟩
      ⟨50, some ⟨10, 0, 50, 1000, 0, 0, 0, 1, 96⟩, 1, none, none⟩).1.lastCloseTime
        = 50 :=
  claim_C2_amended 15 (1/50) _ _ _ _ rfl rfl (by norm_num)
    (by norm_num [abs_of_nonneg]) (by norm_num)

/-- C5 counterexample: a cycle with an open position whose stop-loss is
already breached (entry 1000, stop-loss 3, close 500), but on which the
volatility gate fires (|ema200 − ema90| = 1/2 < 0.1·ATR = 1): the
low-volatility `continue` skips the whole rest of the loop body, so the
exit comparison is never evaluated and the position stays open —
falsifying the claim that the gate suppresses only new entries. -/
theorem claim_C5_counterexample :
    runCycle 15 (1/50) ⟨0, some ⟨"buy", 1, 1000, 3, 5⟩⟩
      ⟨100, some ⟨1000, 2001/2, 50, 2000, 0, 0, 0, 10, 500⟩, 5, none, none⟩ =
    (⟨0, some ⟨"buy", 1, 1000, 3, 5⟩⟩,
      ⟨some SkipReason.lowVol, none, none, false, false⟩) := by
  norm_num [runCycle, determinePosition, checkEntryConditions,
    calculateVolatilityBasedRisk, MIN_ORDER_SIZE, monitorPosition,
    abs_of_nonneg, abs_of_nonpos]

/-- C5 amended: the volatility gate aborts the whole cycle, not just entry:
when `|ema200 − ema90| < 0.1·ATR` the cycle is a no-op (state unchanged,
exit comparison not evaluated); the exit comparison of an open position is
evaluated exactly on the cycles that get past the cooldown, the fetch and
the gate. -/
theorem claim_C5_amended (pause riskPerc : ℚ) (st : BotState) (env : CycleEnv)
    (df : Snapshot)
    (hfetch : env.fetch = some df)
    (hcool : ¬ (env.now - st.lastCloseTime < pause)) :
    ((|df.ema200 - df.ema90| < df.atr * (1/10)) →
      runCycle pause riskPerc st env =
        (st, ⟨some SkipReason.lowVol, none, none, false, false⟩)) ∧
    (¬ (|df.ema200 - df.ema90| < df.atr * (1/10)) →
      st.position.isSome = true →
      (runCycle pause riskPerc st env).2.exitEvaluated = true) := by
  constructor
  · intro hgate
    simp only [runCycle, hfetch, if_neg hcool, if_pos hgate]
  · intro hgate hsome
    obtain ⟨pos, hp⟩ := Option.isSome_iff_exists.mp hsome
    simp only [runCycle, hfetch, if_neg hcool, if_neg hgate, hp,
      monitorPosition, Option.isNone_some, Bool.and_false, Bool.false_and,
      Bool.false_eq_true, if_false]
    split <;> rfl

/-- C5 amended witness: concrete instance of `claim_C5_amended` (the gate
fires, so the cycle is a no-op even though the stop is breached). -/
theorem claim_C5_amended_witness :
    runCycle 15 (1/50) ⟨0, some ⟨"buy", 1, 1000, 3, 5⟩⟩
      ⟨40, some ⟨1000, 2001/2, 50, 2000, 0, 0, 0, 10, 500⟩, 5, none, none⟩ =
    (⟨0, some ⟨"buy", 1, 1000, 3, 5⟩⟩,
      ⟨some SkipReason.lowVol, none, none, false, false⟩) :=
  (claim_C5_amended 15 (1/50) _ _ _ rfl (by norm_num)).1
    (by norm_num [abs_of_nonpos])

/-- C8: the cooldown comparison `now - last_close_time < pause` is strict:
a cycle strictly before `last_close_time + pause` is rejected wholesale
(the cooldown `continue`), and a cycle at or after `last_close_time +
pause` is never blocked by the cooldown (the boundary instant itself
permits entry evaluation). -/
theorem claim_C8_cooldown_strict (pause riskPerc : ℚ) (st : BotState)
    (env : CycleEnv) :
    (env.now < st.lastCloseTime + pause →
      runCycle pause riskPerc st env =
        (st, ⟨some SkipReason.cooldown, none, none, false, false⟩)) ∧
    (st.lastCloseTime + pause ≤ env.now →
      (runCycle pause riskPerc st env).2.skip ≠ some SkipReason.cooldown) := by
  constructor
  · intro h
    have h' : env.now - st.lastCloseTime < pause := by linarith
    simp only [runCycle, if_pos h']
  · intro h
    have h' : ¬ (env.now - st.lastCloseTime < pause) := by
      intro hc
      linarith
    simp only [runCycle, if_neg h']
    cases hf : env.fetch with
    | none => simp
    | some df =>
      simp only
      split
      · simp
      · split
        · split
          · simp
          · simp
        · simp

/-- C8 witness: at the exact boundary `now = last_close_time + pause`
(here 0 + 15 = 15) the cooldown does not block the cycle, and one instant
before the boundary the cycle is rejected wholesale. -/
theorem claim_C8_cooldown_strict_witness :
    (runCycle 15 (1/50) ⟨0, none⟩ ⟨15, none, 0, none, none⟩).2.skip ≠
      some SkipReason.cooldown ∧
    runCycle 15 (1/50) ⟨0, none⟩ ⟨14, none, 0, none, none⟩ =
      (⟨0, none⟩, ⟨some SkipReason.cooldown, none, none, false, false⟩) :=
  ⟨(claim_C8_cooldown_strict 15 (1/50) ⟨0, none⟩ ⟨15, none, 0, none, none⟩).2
      (by norm_num),
    (claim_C8_cooldown_strict 15 (1/50) ⟨0, none⟩ ⟨14, none, 0, none, none⟩).1
      (by norm_num)⟩

/-! Association-list (Python dict) lemmas. -/

theorem lookupD_insertD_self (l : List (String × PValue)) (k : String)
    (v : PValue) : lookupD (insertD l k v) k = some v := by
  induction l with
  | nil => simp [insertD, lookupD]
  | cons p r ih =>
    obtain ⟨k1, v1⟩ := p
    by_cases h : k1 = k
    · simp [insertD, lookupD, h]
    · simp [insertD, lookupD, h, ih]

theorem lookupD_insertD_ne (l : List (String × PValue)) (k k2 : String)
    (v : PValue) (h : k ≠ k2) :
    lookupD (insertD l k v) k2 = lookupD l k2 := by
  induction l with
  | nil => simp [insertD, lookupD, h]
  | cons p r ih =>
    obtain ⟨k1, v1⟩ := p
    by_cases h1 : k1 = k
    · subst h1
      simp [insertD, lookupD, h]
    · simp [insertD, lookupD, h1, ih]

theorem mem_keysD_insertD (l : List (String × PValue)) (k k2 : String)
    (v : PValue) :
    k2 ∈ keysD (insertD l k v) ↔ k2 ∈ keysD l ∨ k2 = k := by
  induction l with
  | nil => simp [insertD, keysD]
  | cons p r ih =>
    obtain ⟨k1, v1⟩ := p
    simp only [insertD]
    by_cases h : k1 = k
    · rw [if_pos h]
      subst h
      simp only [keysD, List.map_cons, List.mem_cons]
      tauto
    · rw [if_neg h]
      simp only [keysD, List.map_cons, List.mem_cons] at *
      rw [ih]
      tauto

theorem keysD_coerceReduceOnly (l : List (String × PValue)) :
    keysD (coerceReduceOnly l) = keysD l := by
  induction l with
  | nil => rfl
  | cons p r ih =>
    obtain ⟨k1, v1⟩ := p
    simp only [coerceReduceOnly, keysD, List.map_cons] at *
    by_cases h : k1 = "reduceOnly"
    · rw [if_pos h, ih]
    · rw [if_neg h, ih]

theorem lookupD_coerceReduceOnly (l : List (String × PValue)) :
    lookupD (coerceReduceOnly l) ("reduceOnly") =
      (lookupD l ("reduceOnly")).map fun v =>
        PValue.s (pyBoolStr (pyTruthy v)) := by
  induction l with
  | nil => rfl
  | cons p r ih =>
    obtain ⟨k1, v1⟩ := p
    by_cases h : k1 = "reduceOnly"
    · simp only [coerceReduceOnly]
      rw [if_pos h]
      simp [lookupD, h]
    · simp only [coerceReduceOnly]
      rw [if_neg h]
      simp [lookupD, h, ih]

theorem insertD_ne_nil (l : List (String × PValue)) (k : String) (v : PValue) :
    insertD l k v ≠ [] := by
  cases l with
  | nil => simp [insertD]
  | cons q r =>
    obtain ⟨k1, w⟩ := q
    by_cases h : k1 = k <;> simp [insertD, h]

/-! String lemmas for the canonical `param_str`. -/

theorem strExt {a b : String} (h : a.data = b.data) : a = b := by
  cases a
  cases b
  exact congrArg String.mk h

theorem str_append_right_cancel {a b c : String} (h : a ++ c = b ++ c) :
    a = b := by
  have hd : a.data ++ c.data = b.data ++ c.data := congrArg String.data h
  exact strExt (List.append_cancel_right hd)

theorem str_append_left_cancel {a b c : String} (h : a ++ b = a ++ c) :
    b = c := by
  have hd : a.data ++ b.data = a.data ++ c.data := congrArg String.data h
  exact strExt (List.append_cancel_left hd)

theorem joinAmp_cons_ne_nil (x : String) (l : List String) (h : l ≠ []) :
    joinAmp (x :: l) = x ++ "&" ++ joinAmp l := by
  cases l with
  | nil => exact absurd rfl h
  | cons y r => rfl

theorem joinAmp_cons_cons (x y : String) (l : List String) :
    joinAmp (x :: y :: l) = x ++ "&" ++ joinAmp (y :: l) := rfl

theorem paramPair_ne (k : String) (v v2 : PValue) (h : pyStr v ≠ pyStr v2) :
    paramPair (k, v) ≠ paramPair (k, v2) := by
  intro he
  exact h (str_append_left_cancel he)

/-- Changing the value stored under a present key changes the canonical
`param_str`, provided the Python string renderings of the two values
differ. -/
theorem paramStr_insertD_ne (p : List (String × PValue)) (k : String)
    (v v2 : PValue) (hk : k ∈ keysD p) (hne : pyStr v ≠ pyStr v2) :
    paramStr (insertD p k v) ≠ paramStr (insertD p k v2) := by
  induction p with
  | nil => simp [keysD] at hk
  | cons q r ih =>
    obtain ⟨k1, w⟩ := q
    by_cases h1 : k1 = k
    · simp only [insertD, if_pos h1, paramStr, List.map_cons]
      subst h1
      cases r with
      | nil =>
        intro he
        exact paramPair_ne k1 v v2 hne he
      | cons y rr =>
        intro he
        rw [List.map_cons, joinAmp_cons_cons, joinAmp_cons_cons] at he
        exact paramPair_ne k1 v v2 hne
          (str_append_right_cancel (str_append_right_cancel he))
    · have hk2 : k ∈ keysD r := by
        simp only [keysD, List.map_cons, List.mem_cons] at hk
        rcases hk with h | h
        · exact absurd h.symm h1
        · exact h
      have hmapne : ∀ u : PValue,
          List.map paramPair (insertD r k u) ≠ [] := by
        intro u hmap
        exact insertD_ne_nil r k u (List.map_eq_nil_iff.mp hmap)
      simp only [insertD, if_neg h1, paramStr, List.map_cons]
      intro he
      rw [joinAmp_cons_ne_nil _ _ (hmapne v),
        joinAmp_cons_ne_nil _ _ (hmapne v2)] at he
      exact ih hk2 (str_append_left_cancel he)

/-- C3 counterexample: a transport failure, non-2xx status or undecodable
body is surfaced by `send_request` as the value `None`; on such a value
`fetch_data` immediately evaluates `None['retCode']` and raises an
uncaught `TypeError`, and `place_order`'s error branch evaluates
`None.get('retMsg', ...)` and raises an uncaught `AttributeError` — the
loop body has no handler, so the process dies rather than skipping the
cycle. -/
theorem claim_C3_counterexample :
    fetchData none = Except.error PyErr.typeError ∧
    placeOrder none = Except.error PyErr.attributeError :=
  ⟨rfl, rfl⟩

/-- C3 amended: an application-level failure (non-zero `retCode`) is a
clean no-op skip in all three handlers, and `get_balance` additionally
absorbs a `None` response; but a `None` response (transport failure,
non-2xx status, or undecodable body) raises an uncaught fault out of
`fetch_data` and out of `place_order`, terminating the loop. -/
theorem claim_C3_amended (kr : KlineResp) (br : BalanceResp)
    (orr : OrderResp) :
    (kr.retCode ≠ 0 → fetchData (some kr) = Except.ok none) ∧
    getBalance none = Except.ok 0 ∧
    (br.retCode ≠ 0 → getBalance (some br) = Except.ok 0) ∧
    (orr.retCode ≠ 0 → placeOrder (some orr) = Except.ok none) := by
  refine ⟨?_, rfl, ?_, ?_⟩
  · intro h
    simp [fetchData, h]
  · intro h
    simp [getBalance, h]
  · intro h
    simp [placeOrder, h]

/-- C3 amended witness: concrete envelopes with `retCode = 10001` are
clean no-op skips in all three handlers. -/
theorem claim_C3_amended_witness :
    fetchData (some ⟨10001, "err", []⟩) = Except.ok none ∧
    getBalance (some ⟨10001, "err", []⟩) = Except.ok 0 ∧
    placeOrder (some ⟨10001, "err", ⟨"Buy", 1⟩⟩) = Except.ok none :=
  ⟨(claim_C3_amended ⟨10001, "err", []⟩ ⟨10001, "err", []⟩
      ⟨10001, "err", ⟨"Buy", 1⟩⟩).1 (by decide),
   (claim_C3_amended ⟨10001, "err", []⟩ ⟨10001, "err", []⟩
      ⟨10001, "err", ⟨"Buy", 1⟩⟩).2.2.1 (by decide),
   (claim_C3_amended ⟨10001, "err", []⟩ ⟨10001, "err", []⟩
      ⟨10001, "err", ⟨"Buy", 1⟩⟩).2.2.2 (by decide)⟩

/-- C6 counterexample: the per-request log line prints the parameter dict
AFTER the `sign` entry has been assigned, so for a concrete call the
logged parameter set contains the `sign` key bound to the full computed
signature — contradicting the claim that the logged set excludes the
signature value. (The `api_secret` itself is indeed never inserted.) -/
theorem claim_C6_counterexample :
    ("sign") ∈ keysD (signedParams ("secr") ("key1") ("1700000000000")
      [(("symbol"), PValue.s ("BTCUSDT"))]) ∧
    lookupD (signedParams ("secr") ("key1") ("1700000000000")
      [(("symbol"), PValue.s ("BTCUSDT"))]) ("sign") =
      some (PValue.s (generate_signature ("secr")
        (sortParams (processedParams ("key1") ("1700000000000")
          [(("symbol"), PValue.s ("BTCUSDT"))])))) := by
  constructor
  · simp only [signedParams]
    exact (mem_keysD_insertD _ _ _ _).mpr (Or.inr rfl)
  · simp only [signedParams]
    exact lookupD_insertD_self _ _ _

/-- C6 amended: the parameter set printed by `send_request`'s log line is
the caller's parameters plus exactly the keys `api_key`, `timestamp` and
`sign` — the account secret is never added under any key, but the `sign`
entry holding the computed signature IS part of the logged set. -/
theorem claim_C6_amended (secret apiKey ts : String)
    (p : List (String × PValue)) (k : String) :
    lookupD (signedParams secret apiKey ts p) ("sign") =
      some (PValue.s (generate_signature secret
        (sortParams (processedParams apiKey ts p)))) ∧
    (k ∈ keysD (signedParams secret apiKey ts p) ↔
      k ∈ keysD p ∨ k = "api_key" ∨ k = "timestamp" ∨ k = "sign") := by
  constructor
  · simp only [signedParams]
    exact lookupD_insertD_self _ _ _
  · simp only [signedParams, processedParams]
    rw [mem_keysD_insertD]
    rw [show keysD (coerceReduceOnly (insertD (insertD p ("api_key")
      (PValue.s apiKey)) ("timestamp") (PValue.s ts))) =
      keysD (insertD (insertD p ("api_key") (PValue.s apiKey)) ("timestamp")
        (PValue.s ts)) from keysD_coerceReduceOnly _]
    rw [mem_keysD_insertD, mem_keysD_insertD]
    tauto

/-- C9 counterexample: the f-string canonicalization collapses distinct
Python values with equal `str()` renderings — changing the single
parameter `positionIdx` from the int `2` (as the source stores it) to
the string `"2"` is a genuine value change that leaves `param_str`, and
hence the HMAC-SHA-256 signature, bit-identical.  This falsifies
"changing the value of any single parameter changes the signature". -/
theorem claim_C9_counterexample :
    PValue.i 2 ≠ PValue.s ("2") ∧
    generate_signature ("secr") [(("positionIdx"), PValue.i 2)] =
      generate_signature ("secr") [(("positionIdx"), PValue.s ("2"))] := by
  constructor
  · intro h
    exact PValue.noConfusion h
  · have h : paramStr (sortParams [(("positionIdx"), PValue.i 2)]) =
        paramStr (sortParams [(("positionIdx"), PValue.s ("2"))]) := rfl
    unfold generate_signature
    rw [h]

/-- C9 amended: signing is deterministic (the signature is a pure function
of the secret and the canonical string, so equal canonical strings give
equal signatures), and changing the value of any single present parameter
changes the canonical signed string `param_str` PROVIDED the two values'
Python string renderings differ; values with equal renderings (e.g. int
`2` vs string `"2"`) produce the identical signature. -/
theorem claim_C9_amended (secret : String) (params : List (String × PValue))
    (k : String) (v v2 : PValue) (hk : k ∈ keysD params)
    (hne : pyStr v ≠ pyStr v2) :
    (∀ q1 q2 : List (String × PValue),
      paramStr (sortParams q1) = paramStr (sortParams q2) →
        generate_signature secret q1 = generate_signature secret q2) ∧
    paramStr (insertD params k v) ≠ paramStr (insertD params k v2) := by
  constructor
  · intro q1 q2 h
    unfold generate_signature
    rw [h]
  · exact paramStr_insertD_ne params k v v2 hk hne

/-- C9 amended witness: concrete instance of `claim_C9_amended` — changing
`qty` from `"5"` to `"7"` changes the canonical string. -/
theorem claim_C9_amended_witness :
    paramStr (insertD [(("qty"), PValue.s ("1"))] ("qty") (PValue.s ("5"))) ≠
      paramStr (insertD [(("qty"), PValue.s ("1"))] ("qty")
        (PValue.s ("7"))) :=
  (claim_C9_amended ("x") [(("qty"), PValue.s ("1"))] ("qty")
    (PValue.s ("5")) (PValue.s ("7")) (by decide) (by decide)).2

/-- C10: `send_request` mutates the caller's params dict in place — after
the call the dict holds `api_key`, `timestamp` and `sign` entries, and a
pre-existing `reduceOnly` value has been replaced by the lowercase string
serialization of its truthiness. -/
theorem claim_C10_params_mutated (secret apiKey ts : String)
    (p : List (String × PValue)) :
    ("api_key") ∈ keysD (signedParams secret apiKey ts p) ∧
    ("timestamp") ∈ keysD (signedParams secret apiKey ts p) ∧
    ("sign") ∈ keysD (signedParams secret apiKey ts p) ∧
    (∀ v, lookupD p ("reduceOnly") = some v →
      lookupD (signedParams secret apiKey ts p) ("reduceOnly") =
        some (PValue.s (pyBoolStr (pyTruthy v)))) := by
  refine ⟨?_, ?_, ?_, ?_⟩
  · simp only [signedParams, processedParams]
    rw [mem_keysD_insertD]
    left
    rw [show keysD (coerceReduceOnly (insertD (insertD p ("api_key")
      (PValue.s apiKey)) ("timestamp") (PValue.s ts))) =
      keysD (insertD (insertD p ("api_key") (PValue.s apiKey)) ("timestamp")
        (PValue.s ts)) from keysD_coerceReduceOnly _]
    rw [mem_keysD_insertD, mem_keysD_insertD]
    tauto
  · simp only [signedParams, processedParams]
    rw [mem_keysD_insertD]
    left
    rw [show keysD (coerceReduceOnly (insertD (insertD p ("api_key")
      (PValue.s apiKey)) ("timestamp") (PValue.s ts))) =
      keysD (insertD (insertD p ("api_key") (PValue.s apiKey)) ("timestamp")
        (PValue.s ts)) from keysD_coerceReduceOnly _]
    rw [mem_keysD_insertD]
    tauto
  · simp only [signedParams]
    exact (mem_keysD_insertD _ _ _ _).mpr (Or.inr rfl)
  · intro v hv
    simp only [signedParams, processedParams]
    rw [lookupD_insertD_ne _ _ _ _ (by decide)]
    rw [lookupD_coerceReduceOnly]
    rw [lookupD_insertD_ne _ _ _ _ (by decide)]
    rw [lookupD_insertD_ne _ _ _ _ (by decide)]
    rw [hv]
    rfl

/-- C10 witness: concrete instance of `claim_C10_params_mutated` — a
boolean `reduceOnly: True` is rewritten to the string `"true"`, and the
`sign` entry is present. -/
theorem claim_C10_params_mutated_witness :
    lookupD (signedParams ("sec") ("key") ("42")
      [(("reduceOnly"), PValue.b true)]) ("reduceOnly") =
      some (PValue.s ("true")) ∧
    ("sign") ∈ keysD (signedParams ("sec") ("key") ("42")
      [(("reduceOnly"), PValue.b true)]) :=
  ⟨(claim_C10_params_mutated ("sec") ("key") ("42")
      [(("reduceOnly"), PValue.b true)]).2.2.2 (PValue.b true) rfl,
   (claim_C10_params_mutated ("sec") ("key") ("42")
      [(("reduceOnly"), PValue.b true)]).2.2.1⟩

end TradingBot
